import Mathlib

/-
  Verification of the bookmarks-semantic-search repository against its
  specification.  The backend services (Ingestion Pipeline, Search Query
  Pipeline, Job Execution Engine) are modelled from the spec; the Chrome
  extension logic is embedded from src/chrome-extension.
-/

namespace BookmarkSearch

/-! ## A small insertion-sort library used to model ORDER BY clauses -/

def insertBy (le : α → α → Bool) (x : α) : List α → List α
  | [] => [x]
  | y :: ys => if le x y then x :: y :: ys else y :: insertBy le x ys

def sortBy (le : α → α → Bool) : List α → List α
  | [] => []
  | x :: xs => insertBy le x (sortBy le xs)

theorem mem_insertBy (le : α → α → Bool) (x : α) (l : List α) (y : α) :
    y ∈ insertBy le x l ↔ y = x ∨ y ∈ l := by
  induction l with
  | nil => simp [insertBy]
  | cons z zs ih =>
    by_cases h : le x z
    · simp [insertBy, h]
    · simp [insertBy, h, ih]
      tauto

theorem perm_insertBy (le : α → α → Bool) (x : α) (l : List α) :
    List.Perm (insertBy le x l) (x :: l) := by
  induction l with
  | nil => simp [insertBy]
  | cons z zs ih =>
    by_cases h : le x z
    · simp [insertBy, h]
    · simp only [insertBy, h, if_neg, Bool.false_eq_true, not_false_iff, ite_false]
      exact (ih.cons z).trans (List.Perm.swap x z zs)

theorem perm_sortBy (le : α → α → Bool) (l : List α) :
    List.Perm (sortBy le l) l := by
  induction l with
  | nil => simp [sortBy]
  | cons x xs ih =>
    exact (perm_insertBy le x (sortBy le xs)).trans (ih.cons x)

theorem mem_sortBy (le : α → α → Bool) (l : List α) (y : α) :
    y ∈ sortBy le l ↔ y ∈ l :=
  (perm_sortBy le l).mem_iff

theorem pairwise_insertBy (le : α → α → Bool)
    (total : ∀ a b, le a b = true ∨ le b a = true)
    (trans : ∀ a b c, le a b = true → le b c = true → le a c = true)
    (x : α) (l : List α)
    (hl : l.Pairwise (fun a b => le a b = true)) :
    (insertBy le x l).Pairwise (fun a b => le a b = true) := by
  induction l with
  | nil => simp [insertBy]
  | cons z zs ih =>
    rcases List.pairwise_cons.1 hl with ⟨hz, hzs⟩
    by_cases h : le x z
    · simp only [insertBy, h, ite_true]
      refine List.pairwise_cons.2 ⟨?_, hl⟩
      intro y hy
      rcases List.mem_cons.1 hy with rfl | hy
      · exact h
      · exact trans x z y h (hz y hy)
    · simp only [insertBy, h, Bool.false_eq_true, not_false_iff, ite_false]
      refine List.pairwise_cons.2 ⟨?_, ih hzs⟩
      intro y hy
      rcases (mem_insertBy le x zs y).1 hy with hxy | hy
      · subst hxy
        rcases total y z with h1 | h1
        · exact absurd h1 h
        · exact h1
      · exact hz y hy

theorem pairwise_sortBy (le : α → α → Bool)
    (total : ∀ a b, le a b = true ∨ le b a = true)
    (trans : ∀ a b c, le a b = true → le b c = true → le a c = true)
    (l : List α) :
    (sortBy le l).Pairwise (fun a b => le a b = true) := by
  induction l with
  | nil => simp [sortBy]
  | cons x xs ih => exact pairwise_insertBy le total trans x (sortBy le xs) ih

/-! ## Data model (spec §3) -/

inductive Lifecycle
  | pending
  | saved
deriving DecidableEq, Repr

/-- Modelled from the spec: the Bookmark record of §3 (the backend service
code that declares it is not under src/; only its SQL index, TypeScript
client types and callers are). -/
structure Bookmark where
  id : Nat
  url : String
  title : Option String
  description : Option String
  domain : String
  tags : List String
  category : Option String
  reference : Option String
  embedding : Option (List ℚ)
  lifecycle : Lifecycle
  createdAt : Nat
deriving DecidableEq, Repr

/-- Named date buckets of spec §4.3 step 4. -/
inductive DateBucket
  | today
  | lastWeek
  | lastMonth
  | last3Months
  | lastYear
  | allTime
deriving DecidableEq, Repr

def secondsPerDay : Nat := 86400

/-- Modelled from the spec: resolve a named bucket to a concrete lower
bound on created_at (none = unbounded, as for all_time). -/
def resolveBucket (now : Nat) : DateBucket → Option Nat
  | .today => some (now - secondsPerDay)
  | .lastWeek => some (now - 7 * secondsPerDay)
  | .lastMonth => some (now - 30 * secondsPerDay)
  | .last3Months => some (now - 90 * secondsPerDay)
  | .lastYear => some (now - 365 * secondsPerDay)
  | .allTime => none

/-- Structured filters of the search endpoint
(spec §6: category?, domain?, reference?, date_range?, date_from?, date_to?). -/
structure SearchFilters where
  category : Option (List String) := none
  domain : Option String := none
  reference : Option String := none
  dateRange : Option DateBucket := none
  dateFrom : Option Nat := none
  dateTo : Option Nat := none
deriving DecidableEq, Repr

/-- A SearchQuery (spec §3): query text, limit, threshold, explicit filters. -/
structure SearchQuery where
  query : String
  limit : Nat := 20
  threshold : ℚ := 3 / 10
  filters : SearchFilters := {}

/-! ### Structural string primitives

The model uses its own character-list implementations of trim, prefix
test, split and substring search so that every definition evaluates
inside the kernel on concrete inputs. -/

def isPrefixChars : List Char → List Char → Bool
  | [], _ => true
  | _ :: _, [] => false
  | x :: xs, y :: ys => x == y && isPrefixChars xs ys

def isSubChars (needle hay : List Char) : Bool :=
  match hay with
  | [] => needle.isEmpty
  | _ :: xs => isPrefixChars needle hay || isSubChars needle xs

def trimChars (l : List Char) : List Char :=
  ((l.dropWhile Char.isWhitespace).reverse.dropWhile Char.isWhitespace).reverse

def trimS (s : String) : String :=
  String.mk (trimChars s.data)

def startsWithS (s pre : String) : Bool :=
  isPrefixChars pre.data s.data

def dropS (s : String) (n : Nat) : String :=
  String.mk (s.data.drop n)

/-- Split a character list at every occurrence of the separator. -/
def splitChars (c : Char) : List Char → List (List Char)
  | [] => [[]]
  | x :: xs =>
    let r := splitChars c xs
    if x == c then [] :: r
    else
      match r with
      | [] => [[x]]
      | y :: ys => (x :: y) :: ys

/-- Split a character list at the first occurrence of the separator,
returning the part before it and (when found) the part after it. -/
def breakAtChar (c : Char) : List Char → List Char × Option (List Char)
  | [] => ([], none)
  | x :: xs =>
    if x == c then ([], some xs)
    else
      let r := breakAtChar c xs
      (x :: r.1, r.2)

def intercalateChar (c : Char) : List (List Char) → List Char
  | [] => []
  | [x] => x
  | x :: xs => x ++ c :: intercalateChar c xs

/-- Substring test used to model the SQL reference LIKE filter. -/
def containsSub (hay needle : String) : Bool :=
  isSubChars needle.data hay.data

/-- Modelled from the spec: merge explicit caller filters with
parser-extracted ones; explicit filters take precedence on conflict
(spec §4.3 step 2). -/
def mergeFilters (explicitF parsedF : SearchFilters) : SearchFilters where
  category := explicitF.category.or parsedF.category
  domain := explicitF.domain.or parsedF.domain
  reference := explicitF.reference.or parsedF.reference
  dateRange := explicitF.dateRange.or parsedF.dateRange
  dateFrom := explicitF.dateFrom.or parsedF.dateFrom
  dateTo := explicitF.dateTo.or parsedF.dateTo

/-- Effective lower bound on created_at: explicit date_from wins,
otherwise a named bucket is resolved to a concrete range. -/
def dateLower (now : Nat) (f : SearchFilters) : Option Nat :=
  match f.dateFrom with
  | some x => some x
  | none => f.dateRange.bind (resolveBucket now)

/-- Modelled from the spec: a bookmark matches all structured filters
(category ∈ set, domain equality, reference substring, date range). -/
def matchesFilters (now : Nat) (f : SearchFilters) (b : Bookmark) : Bool :=
  (match f.category with
   | none => true
   | some cs => match b.category with
     | none => false
     | some c => cs.contains c) &&
  (match f.domain with
   | none => true
   | some d => b.domain == d) &&
  (match f.reference with
   | none => true
   | some r => containsSub (b.reference.getD "") r) &&
  (match dateLower now f with
   | none => true
   | some lo => decide (lo ≤ b.createdAt)) &&
  (match f.dateTo with
   | none => true
   | some hi => decide (b.createdAt ≤ hi))

/-- One row of a search response: a bookmark plus its similarity_score
(none in the pure-filter branch, which ranks by recency). -/
structure SearchResult where
  bookmark : Bookmark
  score : Option ℚ
deriving DecidableEq, Repr

/-- ORDER BY similarity DESC, created_at DESC (tie-break), as a boolean
total preorder for the sort. -/
def simLe (sim : Bookmark → ℚ) (a b : Bookmark) : Bool :=
  decide (sim b < sim a) || (decide (sim a = sim b) && decide (b.createdAt ≤ a.createdAt))

/-- ORDER BY created_at DESC for the pure-filter branch. -/
def recencyLe (a b : Bookmark) : Bool :=
  decide (b.createdAt ≤ a.createdAt)

/-- Modelled from the spec: the Search Query Pipeline (spec §4.3).  The
NL-parser output and the embedding-induced cosine similarity of the query
vector against each stored embedding enter as parameters (both are
external capabilities).  Empty residual query: skip embedding, rank all
saved bookmarks matching the explicit filters by created_at descending.
Non-empty query: merge filters (explicit precedence), keep saved
bookmarks matching all merged filters with similarity ≥ threshold, order
by similarity descending with created_at tie-break, truncate to limit,
attach similarity_score. -/
def search (now : Nat) (store : List Bookmark) (q : SearchQuery)
    (parsed : SearchFilters) (sim : Bookmark → ℚ) : List SearchResult :=
  if q.query = "" then
    let cands := store.filter (fun b =>
      b.lifecycle == Lifecycle.saved && matchesFilters now q.filters b)
    (sortBy recencyLe cands).map (fun b => { bookmark := b, score := none })
  else
    let f := mergeFilters q.filters parsed
    let cands := store.filter (fun b =>
      b.lifecycle == Lifecycle.saved && matchesFilters now f b &&
        decide (q.threshold ≤ sim b))
    ((sortBy (simLe sim) cands).take q.limit).map
      (fun b => { bookmark := b, score := some (sim b) })

/-! ## Order-theoretic facts about the two sort keys -/

theorem simLe_iff (sim : Bookmark → ℚ) (a b : Bookmark) :
    simLe sim a b = true ↔
      (sim b < sim a ∨ (sim a = sim b ∧ b.createdAt ≤ a.createdAt)) := by
  simp [simLe]

theorem simLe_total (sim : Bookmark → ℚ) (a b : Bookmark) :
    simLe sim a b = true ∨ simLe sim b a = true := by
  rw [simLe_iff, simLe_iff]
  rcases lt_trichotomy (sim a) (sim b) with h | h | h
  · exact Or.inr (Or.inl h)
  · rcases Nat.le_total b.createdAt a.createdAt with hc | hc
    · exact Or.inl (Or.inr ⟨h, hc⟩)
    · exact Or.inr (Or.inr ⟨h.symm, hc⟩)
  · exact Or.inl (Or.inl h)

theorem simLe_trans (sim : Bookmark → ℚ) (a b c : Bookmark) :
    simLe sim a b = true → simLe sim b c = true → simLe sim a c = true := by
  rw [simLe_iff, simLe_iff, simLe_iff]
  rintro (h1 | ⟨h1, h1c⟩) (h2 | ⟨h2, h2c⟩)
  · exact Or.inl (h2.trans h1)
  · exact Or.inl (h2 ▸ h1)
  · exact Or.inl (lt_of_lt_of_eq h2 h1.symm)
  · exact Or.inr ⟨h1.trans h2, h2c.trans h1c⟩

theorem recencyLe_total (a b : Bookmark) :
    recencyLe a b = true ∨ recencyLe b a = true := by
  simp only [recencyLe, decide_eq_true_eq]
  exact (Nat.le_total b.createdAt a.createdAt)

theorem recencyLe_trans (a b c : Bookmark) :
    recencyLe a b = true → recencyLe b c = true → recencyLe a c = true := by
  simp only [recencyLe, decide_eq_true_eq]
  exact fun h1 h2 => h2.trans h1

/-- Claim C1: with a non-empty query, every returned bookmark is a saved
bookmark in the store matching all merged filters with similarity ≥ the
threshold; results carry similarity_score, are ordered by similarity
descending with created_at-descending tie-break, are truncated to the
limit, and when no saved bookmark reaches the threshold the result is the
empty list rather than an error. -/
theorem search_semantic_contract (now : Nat) (store : List Bookmark)
    (q : SearchQuery) (parsed : SearchFilters) (sim : Bookmark → ℚ)
    (f : SearchFilters) (res : List SearchResult)
    (hq : ¬ q.query = "")
    (hf : f = mergeFilters q.filters parsed)
    (hres : res = search now store q parsed sim) :
    (∀ r ∈ res, r.bookmark ∈ store ∧ r.bookmark.lifecycle = Lifecycle.saved ∧
      matchesFilters now f r.bookmark = true ∧ q.threshold ≤ sim r.bookmark ∧
      r.score = some (sim r.bookmark)) ∧
    res.length ≤ q.limit ∧
    res.Pairwise (fun r s => sim s.bookmark < sim r.bookmark ∨
      (sim r.bookmark = sim s.bookmark ∧
        s.bookmark.createdAt ≤ r.bookmark.createdAt)) ∧
    ((∀ b ∈ store, b.lifecycle = Lifecycle.saved →
        matchesFilters now f b = true → sim b < q.threshold) → res = []) := by
  subst hf
  have hsearch : search now store q parsed sim =
      ((sortBy (simLe sim) (store.filter (fun b =>
        b.lifecycle == Lifecycle.saved &&
          matchesFilters now (mergeFilters q.filters parsed) b &&
          decide (q.threshold ≤ sim b)))).take q.limit).map
        (fun b => { bookmark := b, score := some (sim b) }) := by
    simp [search, hq]
  subst hres
  rw [hsearch]
  refine ⟨?_, ?_, ?_, ?_⟩
  · intro r hr
    rcases List.mem_map.1 hr with ⟨b, hb, rfl⟩
    have hb2 : b ∈ sortBy (simLe sim) _ := (List.take_sublist _ _).subset hb
    have hb3 := (mem_sortBy _ _ b).1 hb2
    rcases List.mem_filter.1 hb3 with ⟨hmem, hpred⟩
    simp only [Bool.and_eq_true, beq_iff_eq, decide_eq_true_eq] at hpred
    exact ⟨hmem, hpred.1.1, hpred.1.2, hpred.2, rfl⟩
  · rw [List.length_map, List.length_take]
    exact min_le_left _ _
  · refine List.pairwise_map.2 ?_
    have hsorted := pairwise_sortBy (simLe sim) (simLe_total sim)
      (simLe_trans sim) (store.filter (fun b =>
        b.lifecycle == Lifecycle.saved &&
          matchesFilters now (mergeFilters q.filters parsed) b &&
          decide (q.threshold ≤ sim b)))
    have htake := hsorted.sublist (List.take_sublist q.limit _)
    exact htake.imp (fun h => (simLe_iff sim _ _).1 h)
  · intro hall
    have hnil : store.filter (fun b =>
        b.lifecycle == Lifecycle.saved &&
          matchesFilters now (mergeFilters q.filters parsed) b &&
          decide (q.threshold ≤ sim b)) = [] := by
      rw [List.filter_eq_nil_iff]
      intro b hbmem hpred
      simp only [Bool.and_eq_true, beq_iff_eq, decide_eq_true_eq] at hpred
      exact absurd hpred.2 (not_le.2 (hall b hbmem hpred.1.1 hpred.1.2))
    rw [hnil]
    simp [sortBy]

/-- A store and similarity function for concrete witnesses: one saved
bookmark whose similarity against the query vector is 1/4. -/
def wBookmark : Bookmark where
  id := 1
  url := "https://example.com/ml"
  title := some "A post"
  description := none
  domain := "example.com"
  tags := ["ml"]
  category := some "Tech"
  reference := none
  embedding := some [1, 0]
  lifecycle := Lifecycle.saved
  createdAt := 100

def wSim : Bookmark → ℚ := fun _ => 1 / 4

def wQuery : SearchQuery where
  query := "articles about machine learning"
  limit := 5
  threshold := 3 / 10

/-- Witness for C1: the scenario of spec §8 — the closest bookmark has
similarity 1/4 < 3/10, so the search returns the empty array. -/
theorem search_semantic_contract_witness :
    search 200 [wBookmark] wQuery {} wSim = [] := by
  refine (search_semantic_contract 200 [wBookmark] wQuery {} wSim
    (mergeFilters wQuery.filters {}) (search 200 [wBookmark] wQuery {} wSim)
    (by decide) rfl rfl).2.2.2 ?_
  intro b hb _ _
  rcases List.mem_singleton.1 hb with rfl
  norm_num [wSim, wQuery]

/-- Claim C2: with an empty query string, search performs no vector
computation (its result does not depend on the similarity function or the
parser output) and returns exactly the saved bookmarks matching the
explicit filters, ordered by created_at descending, with no
similarity_score attached. -/
theorem search_empty_query_contract (now : Nat) (store : List Bookmark)
    (q : SearchQuery) (parsed parsed₂ : SearchFilters)
    (sim sim₂ : Bookmark → ℚ) (res : List SearchResult)
    (hq : q.query = "")
    (hres : res = search now store q parsed sim) :
    search now store q parsed sim = search now store q parsed₂ sim₂ ∧
    List.Perm (res.map SearchResult.bookmark)
      (store.filter (fun b =>
        b.lifecycle == Lifecycle.saved && matchesFilters now q.filters b)) ∧
    res.Pairwise (fun r s => s.bookmark.createdAt ≤ r.bookmark.createdAt) ∧
    (∀ r ∈ res, r.score = none) := by
  have hsearch : ∀ (p : SearchFilters) (s : Bookmark → ℚ),
      search now store q p s =
        (sortBy recencyLe (store.filter (fun b =>
          b.lifecycle == Lifecycle.saved && matchesFilters now q.filters b))).map
          (fun b => { bookmark := b, score := none }) := by
    intro p s
    simp [search, hq]
  subst hres
  refine ⟨(hsearch parsed sim).trans (hsearch parsed₂ sim₂).symm, ?_, ?_, ?_⟩
  · rw [hsearch]
    rw [List.map_map]
    have : (SearchResult.bookmark ∘ fun b => ({ bookmark := b, score := none } : SearchResult)) = id := rfl
    rw [this, List.map_id]
    exact perm_sortBy recencyLe _
  · rw [hsearch]
    refine List.pairwise_map.2 ?_
    have hsorted := pairwise_sortBy recencyLe recencyLe_total recencyLe_trans
      (store.filter (fun b =>
        b.lifecycle == Lifecycle.saved && matchesFilters now q.filters b))
    exact hsorted.imp (fun h => of_decide_eq_true h)
  · rw [hsearch]
    intro r hr
    rcases List.mem_map.1 hr with ⟨b, _, rfl⟩
    rfl

/-- Witness for C2: the empty query over the one-bookmark store returns
that bookmark ranked by recency with no score. -/
theorem search_empty_query_contract_witness :
    search 200 [wBookmark] { query := "" } {} wSim =
      search 200 [wBookmark] { query := "" } { domain := some "x" }
        (fun _ => 9) ∧
    List.Perm ((search 200 [wBookmark] { query := "" } {} wSim).map
      SearchResult.bookmark)
      ([wBookmark].filter (fun b =>
        b.lifecycle == Lifecycle.saved &&
          matchesFilters 200 ({ query := "" } : SearchQuery).filters b)) ∧
    (search 200 [wBookmark] { query := "" } {} wSim).Pairwise
      (fun r s => s.bookmark.createdAt ≤ r.bookmark.createdAt) ∧
    (∀ r ∈ search 200 [wBookmark] { query := "" } {} wSim, r.score = none) :=
  search_empty_query_contract 200 [wBookmark] { query := "" } {}
    { domain := some "x" } wSim (fun _ => 9)
    (search 200 [wBookmark] { query := "" } {} wSim) rfl rfl

/-! ## Ingestion Pipeline: two-phase preview/save (spec §4.1) -/

/-- Extracted page content produced by the Content Fetcher. -/
structure Content where
  title : Option String
  description : Option String
  body : String
deriving DecidableEq, Repr

/-- Typed failures of the capability wrappers (spec §4.2). -/
inductive GenError
  | rateLimited
  | timeout
  | invalidInput
deriving DecidableEq, Repr

/-- Output of the Descriptor Generator. -/
structure DescOut where
  tags : List String
  suggestedCategory : String
  title : Option String
  description : Option String
deriving DecidableEq, Repr

/-- Modelled from the spec: the retry policy of §4.2 — at most one retry
with backoff for RateLimited/Timeout; InvalidInput is never retried.  The
two arguments are the outcomes of the first and (potential) second
attempt. -/
def retryPolicy (first second : Except GenError α) : Except GenError α :=
  match first with
  | .ok a => .ok a
  | .error .invalidInput => .error .invalidInput
  | .error _ => second

/-- A pending bookmark row staged by preview, subject to a TTL. -/
structure PendingRecord where
  id : Nat
  url : String
  title : Option String
  description : Option String
  domain : String
  tags : List String
  suggestedCategory : String
  scrapeFailed : Bool
  body : String
  expiresAt : Nat
deriving DecidableEq, Repr

/-- One owner's slice of the Bookmark Store: a fresh-id counter, the
pending rows and the saved bookmarks. -/
structure Store where
  nextId : Nat
  pending : List PendingRecord
  savedBookmarks : List Bookmark
deriving DecidableEq, Repr

inductive PreviewError
  | invalidUrl
  | duplicateBookmark
deriving DecidableEq, Repr

inductive SaveError
  | previewExpired
  | missingTitle
  | emptyCategory
  | embeddingFailed
deriving DecidableEq, Repr

/-- The preview payload returned to the client
(spec §6: id, title, description, domain, suggested_category, tags, scrape_failed). -/
structure Preview where
  id : Nat
  title : Option String
  description : Option String
  domain : String
  suggestedCategory : String
  tags : List String
  scrapeFailed : Bool
deriving DecidableEq, Repr

def ttlSeconds : Nat := 600

def isValidUrl (url : String) : Bool :=
  startsWithS url "http://" || startsWithS url "https://"

def stripScheme (url : String) : String :=
  if startsWithS url "https://" then dropS url 8
  else if startsWithS url "http://" then dropS url 7
  else url

/-- Domain derived purely from the URL: the host part before the first
slash of the scheme-stripped URL. -/
def domainOf (url : String) : String :=
  String.mk (breakAtChar '/' (stripScheme url).data).1

def isTrackingParam (p : List Char) : Bool :=
  isPrefixChars "utm_".data p || isPrefixChars "fbclid=".data p ||
    isPrefixChars "gclid=".data p || isPrefixChars "ref=".data p

/-- Modelled from the spec: URL normalization — strip tracking query
parameters, keep the rest of the URL. -/
def normalizeUrl (url : String) : String :=
  match breakAtChar '?' url.data with
  | (_, none) => url
  | (base, some query) =>
    let kept := (splitChars '&' query).filter (fun p => !isTrackingParam p)
    if kept.isEmpty then String.mk base
    else String.mk (base ++ '?' :: intercalateChar '&' kept)

/-- Title available for the preview: the fetched title when present,
otherwise whatever the Descriptor Generator inferred (null when scraping
failed and nothing could be inferred). -/
def previewTitle (fetched : Option Content)
    (descOutcome : Except GenError DescOut) : Option String :=
  match fetched.bind Content.title with
  | some t => some t
  | none =>
    match descOutcome with
    | .ok d => d.title
    | .error _ => none

def previewDescription (fetched : Option Content)
    (descOutcome : Except GenError DescOut) : Option String :=
  match fetched.bind Content.description with
  | some d => some d
  | none =>
    match descOutcome with
    | .ok d => d.description
    | .error _ => none

/-- Tags produced by the descriptor outcome; the degrade policy yields
the empty list on failure. -/
def descTags (descOutcome : Except GenError DescOut) : List String :=
  match descOutcome with
  | .ok dd => dd.tags
  | .error _ => []

/-- Category produced by the descriptor outcome; the degrade policy
yields "Uncategorized" on failure. -/
def descCategory (descOutcome : Except GenError DescOut) : String :=
  match descOutcome with
  | .ok dd => dd.suggestedCategory
  | .error _ => "Uncategorized"

/-- The preview payload a successful previewBookmark call returns. -/
def previewPayload (st : Store) (url : String) (fetched : Option Content)
    (descOutcome : Except GenError DescOut) : Preview where
  id := st.nextId
  title := previewTitle fetched descOutcome
  description := previewDescription fetched descOutcome
  domain := domainOf (normalizeUrl url)
  suggestedCategory := descCategory descOutcome
  tags := descTags descOutcome
  scrapeFailed := fetched.isNone

/-- The pending row a successful previewBookmark call stages. -/
def previewRow (st : Store) (now : Nat) (url : String)
    (fetched : Option Content) (descOutcome : Except GenError DescOut) :
    PendingRecord where
  id := st.nextId
  url := normalizeUrl url
  title := previewTitle fetched descOutcome
  description := previewDescription fetched descOutcome
  domain := domainOf (normalizeUrl url)
  tags := descTags descOutcome
  suggestedCategory := descCategory descOutcome
  scrapeFailed := fetched.isNone
  body := (fetched.map Content.body).getD ""
  expiresAt := now + ttlSeconds

/-- The store after a successful previewBookmark call: fresh-id counter
bumped, new pending row staged, saved bookmarks untouched. -/
def nextStore (st : Store) (now : Nat) (url : String)
    (fetched : Option Content) (descOutcome : Except GenError DescOut) :
    Store where
  nextId := st.nextId + 1
  pending := previewRow st now url fetched descOutcome :: st.pending
  savedBookmarks := st.savedBookmarks

/-- Modelled from the spec: previewBookmark (spec §4.1).  Validates the
URL, rejects a duplicate against *saved* bookmarks only, absorbs Content
Fetcher failure (scrape_failed = true, domain-only context), degrades a
Descriptor Generator failure to tags = [] and category "Uncategorized",
and stages a pending row with a fresh id and a TTL.  The fetch outcome
and the (already retried, §4.2) descriptor outcome enter as parameters,
being external capabilities. -/
def previewBookmark (st : Store) (now : Nat) (url : String)
    (fetched : Option Content) (descOutcome : Except GenError DescOut) :
    Except PreviewError (Preview × Store) :=
  if !isValidUrl url then .error .invalidUrl
  else if st.savedBookmarks.any (fun b => b.url == normalizeUrl url) then
    .error .duplicateBookmark
  else
    .ok (previewPayload st url fetched descOutcome,
      nextStore st now url fetched descOutcome)

/-- A preview call on a valid, non-duplicate URL succeeds and returns
the named payload and successor store. -/
theorem preview_ok (st : Store) (now : Nat) (url : String)
    (fetched : Option Content) (descOutcome : Except GenError DescOut)
    (hurl : isValidUrl url = true)
    (hdup : st.savedBookmarks.any (fun b => b.url == normalizeUrl url) = false) :
    previewBookmark st now url fetched descOutcome =
      .ok (previewPayload st url fetched descOutcome,
        nextStore st now url fetched descOutcome) := by
  simp [previewBookmark, hurl, hdup]

/-- The save request body (spec §6: id, category, reference?, title?). -/
structure SaveInput where
  id : Nat
  category : String
  title : Option String := none
  reference : Option String := none
deriving DecidableEq, Repr

def findPending (st : Store) (i : Nat) : Option PendingRecord :=
  st.pending.find? (fun r => r.id == i)

/-- The title the save will commit: caller override when supplied and
non-blank, otherwise the title staged at preview time. -/
def effectiveTitle (inp : SaveInput) (r : PendingRecord) : Option String :=
  match inp.title with
  | some t => if trimS t = "" then r.title else some t
  | none => r.title

/-- The saved bookmark a successful save produces from the pending row,
the request and the embedding vector. -/
def savedBookmarkOf (r : PendingRecord) (inp : SaveInput) (t : String)
    (v : List ℚ) (now : Nat) : Bookmark where
  id := r.id
  url := r.url
  title := some t
  description := r.description
  domain := r.domain
  tags := r.tags
  category := some inp.category
  reference := inp.reference
  embedding := some v
  lifecycle := Lifecycle.saved
  createdAt := now

/-- The store after a successful save: the pending row is consumed and
the saved bookmark appended. -/
def commitSave (st : Store) (i : Nat) (b : Bookmark) : Store where
  nextId := st.nextId
  pending := st.pending.filter (fun q => q.id != i)
  savedBookmarks := b :: st.savedBookmarks

/-- Modelled from the spec: saveBookmark (spec §4.1).  Looks up the
pending row (PreviewExpired if absent or past its TTL), validates the
category and the effective title (MissingTitle when the preview had no
title and the caller supplies none), invokes the Embedding Generator
(whose already-retried outcome enters as a parameter; failure fails the
save outright), then atomically consumes the pending row and appends the
saved bookmark.  Every error leaves the store unchanged. -/
def saveBookmark (st : Store) (now : Nat) (inp : SaveInput)
    (embedOutcome : Except GenError (List ℚ)) :
    Except SaveError Bookmark × Store :=
  match findPending st inp.id with
  | none => (.error .previewExpired, st)
  | some r =>
    if r.expiresAt < now then (.error .previewExpired, st)
    else if trimS inp.category = "" then (.error .emptyCategory, st)
    else
      match effectiveTitle inp r with
      | none => (.error .missingTitle, st)
      | some t =>
        match embedOutcome with
        | .error _ => (.error .embeddingFailed, st)
        | .ok v =>
          (.ok (savedBookmarkOf r inp t v now),
            commitSave st inp.id (savedBookmarkOf r inp t v now))

/-! ## Theorems on the preview/save protocol -/

/-- Claim C3: previewBookmark never errors because of a Content Fetcher
failure: with the fetch failed (and the URL valid and not a duplicate)
it returns a preview with scrape_failed = true and a domain derived
purely from the input URL; when the Descriptor Generator also fails it
returns null title and description, tags = [] and suggested_category
"Uncategorized". -/
theorem preview_fetch_failure_contract (st : Store) (now : Nat)
    (url : String) (descOutcome : Except GenError DescOut)
    (hurl : isValidUrl url = true)
    (hdup : st.savedBookmarks.any (fun b => b.url == normalizeUrl url) = false) :
    ∃ p st₁, previewBookmark st now url none descOutcome = .ok (p, st₁) ∧
      p.scrapeFailed = true ∧ p.domain = domainOf (normalizeUrl url) ∧
      (∀ e, descOutcome = .error e →
        p.title = none ∧ p.description = none ∧ p.tags = [] ∧
        p.suggestedCategory = "Uncategorized") := by
  refine ⟨previewPayload st url none descOutcome,
    nextStore st now url none descOutcome,
    preview_ok st now url none descOutcome hurl hdup, rfl, rfl, ?_⟩
  rintro e rfl
  exact ⟨rfl, rfl, rfl, rfl⟩

/-- The empty store used by the concrete witnesses. -/
def wStore0 : Store where
  nextId := 0
  pending := []
  savedBookmarks := []

/-- Witness for C3: the scenario of spec §8 — previewing
https://example.com/a with the Fetcher unreachable and the Descriptor
Generator timing out. -/
theorem preview_fetch_failure_contract_witness :
    ∃ p st₁, previewBookmark wStore0 0 "https://example.com/a" none
        (.error .timeout) = .ok (p, st₁) ∧
      p.scrapeFailed = true ∧
      p.domain = domainOf (normalizeUrl "https://example.com/a") ∧
      (∀ e, (.error .timeout : Except GenError DescOut) = .error e →
        p.title = none ∧ p.description = none ∧ p.tags = [] ∧
        p.suggestedCategory = "Uncategorized") :=
  preview_fetch_failure_contract wStore0 0 "https://example.com/a"
    (.error .timeout) (by decide) rfl

/-- Claim C4: on a pending preview with scrape_failed = true and no
title, a save without a caller title fails with MissingTitle and leaves
the store unchanged; a save with a non-empty title and category succeeds
and the saved bookmark carries exactly that category and title and has
an embedding present. -/
theorem save_missing_title_contract (st : Store) (now i : Nat)
    (r : PendingRecord) (cat : String) (emb : Except GenError (List ℚ))
    (hfind : findPending st i = some r)
    (hscrape : r.scrapeFailed = true)
    (htitle : r.title = none)
    (hexp : ¬ r.expiresAt < now)
    (hcat : ¬ trimS cat = "") :
    saveBookmark st now { id := i, category := cat } emb =
      (.error .missingTitle, st) ∧
    (∀ t v, ¬ trimS t = "" →
      ∃ b st₁,
        saveBookmark st now { id := i, category := cat, title := some t }
            (.ok v) = (.ok b, st₁) ∧
        b.category = some cat ∧ b.title = some t ∧ b.embedding = some v ∧
        st₁.savedBookmarks = b :: st.savedBookmarks) := by
  constructor
  · simp [saveBookmark, hfind, hexp, hcat, effectiveTitle, htitle]
  · intro t v ht
    have heff : effectiveTitle { id := i, category := cat, title := some t } r
        = some t := by
      simp [effectiveTitle, ht]
    refine ⟨savedBookmarkOf r { id := i, category := cat, title := some t } t v now,
      commitSave st i (savedBookmarkOf r { id := i, category := cat, title := some t } t v now),
      ?_, rfl, rfl, rfl, rfl⟩
    simp [saveBookmark, hfind, hexp, hcat, heff]

/-- The pending record and one-pending store used by the save
witnesses: a preview that failed to scrape and has no title. -/
def wPending : PendingRecord where
  id := 0
  url := "https://example.com/a"
  title := none
  description := none
  domain := "example.com"
  tags := []
  suggestedCategory := "Uncategorized"
  scrapeFailed := true
  body := ""
  expiresAt := 600

def wStore1 : Store where
  nextId := 1
  pending := [wPending]
  savedBookmarks := []

/-- Witness for C4: the spec §8 scenario — save(id, category = Tech)
without a title errors MissingTitle; with title =  My Note  it succeeds
with exactly that category, title and an embedding. -/
theorem save_missing_title_contract_witness :
    saveBookmark wStore1 0 { id := 0, category := "Tech" } (.ok [1]) =
      (.error .missingTitle, wStore1) ∧
    (∀ t v, ¬ trimS t = "" →
      ∃ b st₁,
        saveBookmark wStore1 0 { id := 0, category := "Tech", title := some t }
            (.ok v) = (.ok b, st₁) ∧
        b.category = some "Tech" ∧ b.title = some t ∧ b.embedding = some v ∧
        st₁.savedBookmarks = b :: wStore1.savedBookmarks) :=
  save_missing_title_contract wStore1 0 0 wPending "Tech" (.ok [1])
    rfl rfl rfl (by decide) (by decide)

/-- Claim C5: saving an id that is already consumed (no pending row) or
past its TTL yields PreviewExpired, leaves the store unchanged, and a
repeated call yields the very same error again — no second saved
bookmark can ever be produced. -/
theorem save_preview_expired_contract (st : Store) (now : Nat)
    (inp : SaveInput) (emb emb₂ : Except GenError (List ℚ))
    (hgone : findPending st inp.id = none ∨
      ∃ r, findPending st inp.id = some r ∧ r.expiresAt < now) :
    saveBookmark st now inp emb = (.error .previewExpired, st) ∧
    saveBookmark (saveBookmark st now inp emb).2 now inp emb₂ =
      (.error .previewExpired, st) := by
  have h1 : ∀ e, saveBookmark st now inp e = (.error .previewExpired, st) := by
    intro e
    rcases hgone with h | ⟨r, hr, hrexp⟩
    · simp [saveBookmark, h]
    · simp [saveBookmark, hr, hrexp]
  refine ⟨h1 emb, ?_⟩
  rw [h1 emb]
  exact h1 emb₂

/-- Witness for C5: saving id 7, which has no pending row in the
one-pending store, errors PreviewExpired twice and changes nothing. -/
theorem save_preview_expired_contract_witness :
    saveBookmark wStore1 0 { id := 7, category := "Tech" } (.ok [1]) =
      (.error .previewExpired, wStore1) ∧
    saveBookmark (saveBookmark wStore1 0 { id := 7, category := "Tech" }
        (.ok [1])).2 0 { id := 7, category := "Tech" } (.error .timeout) =
      (.error .previewExpired, wStore1) :=
  save_preview_expired_contract wStore1 0 { id := 7, category := "Tech" }
    (.ok [1]) (.error .timeout) (Or.inl rfl)

/-- Claim C7: the degrade-vs-fail policy.  InvalidInput is never
retried; RateLimited and Timeout get exactly one retry; when the
descriptor outcome after the policy is still a failure, the preview
still succeeds with tags = [] and category "Uncategorized" (ingestion is
never aborted); an Embedding Generator failure during save makes the
save fail outright with the store unchanged, so no bookmark is
created. -/
theorem degrade_policy_contract (st : Store) (now : Nat) (url : String)
    (fetched : Option Content) (first second : Except GenError DescOut)
    (i : Nat) (r : PendingRecord) (cat t : String) (e : GenError)
    (hurl : isValidUrl url = true)
    (hdup : st.savedBookmarks.any (fun b => b.url == normalizeUrl url) = false)
    (hfind : findPending st i = some r)
    (hexp : ¬ r.expiresAt < now)
    (hcat : ¬ trimS cat = "")
    (ht : ¬ trimS t = "") :
    retryPolicy (.error .invalidInput) second =
      (.error .invalidInput : Except GenError DescOut) ∧
    retryPolicy (.error .rateLimited) second = second ∧
    retryPolicy (.error .timeout) second = second ∧
    (∀ e₂, retryPolicy first second = .error e₂ →
      ∃ p st₁, previewBookmark st now url fetched (retryPolicy first second) =
          .ok (p, st₁) ∧
        p.tags = [] ∧ p.suggestedCategory = "Uncategorized") ∧
    saveBookmark st now { id := i, category := cat, title := some t }
        (.error e) = (.error .embeddingFailed, st) := by
  refine ⟨rfl, rfl, rfl, ?_, ?_⟩
  · intro e₂ h₂
    rw [h₂]
    exact ⟨previewPayload st url fetched (.error e₂),
      nextStore st now url fetched (.error e₂),
      preview_ok st now url fetched (.error e₂) hurl hdup, rfl, rfl⟩
  · have heff : effectiveTitle { id := i, category := cat, title := some t } r
        = some t := by
      simp [effectiveTitle, ht]
    simp [saveBookmark, hfind, hexp, hcat, heff]

/-- Witness for C7: a timed-out descriptor (after its one retry) still
yields a preview with empty tags and Uncategorized, while a timed-out
embedding fails the save with the store unchanged. -/
theorem degrade_policy_contract_witness :
    retryPolicy (.error .invalidInput) (.error .timeout) =
      (.error .invalidInput : Except GenError DescOut) ∧
    retryPolicy (.error .rateLimited) (.error .timeout) =
      (.error .timeout : Except GenError DescOut) ∧
    retryPolicy (.error .timeout) (.error .timeout) =
      (.error .timeout : Except GenError DescOut) ∧
    (∀ e₂, retryPolicy (.error .timeout) (.error .timeout) =
        (.error e₂ : Except GenError DescOut) →
      ∃ p st₁, previewBookmark wStore1 0 "https://example.com/b" none
          (retryPolicy (.error .timeout) (.error .timeout)) = .ok (p, st₁) ∧
        p.tags = [] ∧ p.suggestedCategory = "Uncategorized") ∧
    saveBookmark wStore1 0 { id := 0, category := "Tech", title := some "My Note" }
        (.error .timeout) = (.error .embeddingFailed, wStore1) :=
  degrade_policy_contract wStore1 0 "https://example.com/b" none
    (.error .timeout) (.error .timeout) 0 wPending "Tech" "My Note" .timeout
    (by decide) rfl rfl (by decide) (by decide) (by decide)

/-- Claim C9: previewBookmark rejects with DuplicateBookmark exactly
when the owner already has a saved bookmark for the normalized URL (the
pending rows play no part); on a non-duplicate, each call stages a new
pending row with a fresh id, so two successive previews of the same URL
succeed with distinct ids. -/
theorem preview_duplicate_contract (st : Store) (now : Nat) (url : String)
    (fetched : Option Content) (descOutcome : Except GenError DescOut)
    (hurl : isValidUrl url = true) :
    (previewBookmark st now url fetched descOutcome =
        .error .duplicateBookmark ↔
      st.savedBookmarks.any (fun b => b.url == normalizeUrl url) = true) ∧
    (st.savedBookmarks.any (fun b => b.url == normalizeUrl url) = false →
      ∃ p₁ st₁ p₂ st₂,
        previewBookmark st now url fetched descOutcome = .ok (p₁, st₁) ∧
        previewBookmark st₁ now url fetched descOutcome = .ok (p₂, st₂) ∧
        p₁.id = st.nextId ∧ p₂.id = st.nextId + 1 ∧ ¬ p₁.id = p₂.id ∧
        st₁.savedBookmarks = st.savedBookmarks ∧
        st₂.savedBookmarks = st.savedBookmarks ∧
        st₁.pending.length = st.pending.length + 1 ∧
        st₂.pending.length = st.pending.length + 2) := by
  constructor
  · constructor
    · intro h
      by_contra hne
      have hdup : st.savedBookmarks.any (fun b => b.url == normalizeUrl url)
          = false := Bool.eq_false_iff.2 hne
      rw [preview_ok st now url fetched descOutcome hurl hdup] at h
      exact Except.noConfusion h
    · intro hdup
      simp [previewBookmark, hurl, hdup]
  · intro hdup
    have h1 := preview_ok st now url fetched descOutcome hurl hdup
    have hdup2 : (nextStore st now url fetched descOutcome).savedBookmarks.any
        (fun b => b.url == normalizeUrl url) = false := hdup
    have h2 := preview_ok (nextStore st now url fetched descOutcome) now url
      fetched descOutcome hurl hdup2
    refine ⟨_, _, _, _, h1, h2, rfl, rfl, ?_, rfl, rfl, rfl, rfl⟩
    show ¬ st.nextId = st.nextId + 1
    omega

/-- Witness for C9: previewing the same URL twice over the empty store
succeeds both times with fresh distinct ids, while the one-saved-
bookmark store rejects the already saved URL as a duplicate. -/
theorem preview_duplicate_contract_witness :
    (previewBookmark wStore0 0 "https://example.com/a" none
        (.error .timeout) = .error .duplicateBookmark ↔
      wStore0.savedBookmarks.any
        (fun b => b.url == normalizeUrl "https://example.com/a") = true) ∧
    (wStore0.savedBookmarks.any
        (fun b => b.url == normalizeUrl "https://example.com/a") = false →
      ∃ p₁ st₁ p₂ st₂,
        previewBookmark wStore0 0 "https://example.com/a" none
          (.error .timeout) = .ok (p₁, st₁) ∧
        previewBookmark st₁ 0 "https://example.com/a" none
          (.error .timeout) = .ok (p₂, st₂) ∧
        p₁.id = wStore0.nextId ∧ p₂.id = wStore0.nextId + 1 ∧
        ¬ p₁.id = p₂.id ∧
        st₁.savedBookmarks = wStore0.savedBookmarks ∧
        st₂.savedBookmarks = wStore0.savedBookmarks ∧
        st₁.pending.length = wStore0.pending.length + 1 ∧
        st₂.pending.length = wStore0.pending.length + 2) :=
  preview_duplicate_contract wStore0 0 "https://example.com/a" none
    (.error .timeout) (by decide)

/-! ## Job Execution Engine (spec §4.4) -/

inductive JobState
  | pending
  | running
  | completed
  | failed
deriving DecidableEq, Repr

/-- How far along the pending → running → terminal chain a state is. -/
def JobState.rank : JobState → Nat
  | .pending => 0
  | .running => 1
  | .completed => 2
  | .failed => 2

def JobState.isTerminal : JobState → Bool
  | .completed => true
  | .failed => true
  | _ => false

/-- Modelled from the spec: a Job row (spec §3). -/
structure Job where
  id : Nat
  jobType : String
  status : JobState
  title : String
  progressCurrent : Nat
  progressTotal : Nat
  currentItem : Option String
  result : Option (List Nat)
  errorMessage : Option String
  createdAt : Nat
  startedAt : Option Nat
  completedAt : Option Nat
deriving DecidableEq, Repr

/-- The operations a worker can attempt against a job record. -/
inductive JobOp
  | claim (t : Nat)
  | updateProgress (cur : Nat) (item : Option String)
  | complete (t : Nat) (res : List Nat)
  | fail (t : Nat) (msg : String)
deriving DecidableEq, Repr

/-- Modelled from the spec: enqueue creates a pending job with
created_at set (spec §4.4). -/
def enqueueJob (i : Nat) (jobType title : String) (total createdAt : Nat) :
    Job where
  id := i
  jobType := jobType
  status := .pending
  title := title
  progressCurrent := 0
  progressTotal := total
  currentItem := none
  result := none
  errorMessage := none
  createdAt := createdAt
  startedAt := none
  completedAt := none

/-- Modelled from the spec: the engine applies an operation as a
conditional update (spec §4.4, §5): a claim only moves pending to
running; progress updates only apply while running, never decrease
progress_current and never push it past a positive progress_total; a
terminal transition only leaves a non-terminal state and sets
completed_at plus result (completed) or error_message (failed).  An
operation whose precondition fails observes the non-matching state and
leaves the record unchanged. -/
def jobStep (j : Job) (op : JobOp) : Job :=
  match op with
  | .claim t =>
    match j.status with
    | .pending => { j with status := .running, startedAt := some t }
    | _ => j
  | .updateProgress cur item =>
    match j.status with
    | .running =>
      if j.progressCurrent ≤ cur ∧ (0 < j.progressTotal → cur ≤ j.progressTotal)
      then { j with progressCurrent := cur, currentItem := item }
      else j
    | _ => j
  | .complete t res =>
    if j.status.isTerminal then j
    else { j with status := .completed, completedAt := some t,
                  result := some res }
  | .fail t msg =>
    if j.status.isTerminal then j
    else { j with status := .failed, completedAt := some t,
                  errorMessage := some msg }

/-- Running a whole sequence of attempted operations. -/
def runJob (j : Job) (ops : List JobOp) : Job :=
  ops.foldl jobStep j

/-- The §3 invariant: progress_current ≤ progress_total once
progress_total > 0. -/
def jobInv (j : Job) : Prop :=
  0 < j.progressTotal → j.progressCurrent ≤ j.progressTotal

theorem jobStep_rank_le (j : Job) (op : JobOp) :
    j.status.rank ≤ (jobStep j op).status.rank := by
  cases op with
  | claim t =>
    cases h : j.status <;> simp [jobStep, h, JobState.rank]
  | updateProgress cur item =>
    cases h : j.status
    · simp [jobStep, h]
    · simp only [jobStep, h]
      split
      · simp [JobState.rank]
      · simp [h]
    · simp [jobStep, h]
    · simp [jobStep, h]
  | complete t res =>
    by_cases h : j.status.isTerminal = true
    · simp [jobStep, h]
    · simp only [jobStep]
      rw [if_neg h]
      cases hs : j.status
      · simp [JobState.rank]
      · simp [JobState.rank]
      · exact absurd (by simp [hs, JobState.isTerminal]) h
      · exact absurd (by simp [hs, JobState.isTerminal]) h
  | fail t msg =>
    by_cases h : j.status.isTerminal = true
    · simp [jobStep, h]
    · simp only [jobStep]
      rw [if_neg h]
      cases hs : j.status
      · simp [JobState.rank]
      · simp [JobState.rank]
      · exact absurd (by simp [hs, JobState.isTerminal]) h
      · exact absurd (by simp [hs, JobState.isTerminal]) h

theorem jobStep_terminal_fixed (j : Job) (op : JobOp)
    (h : j.status.isTerminal = true) : jobStep j op = j := by
  cases op with
  | claim t =>
    cases hs : j.status
    · simp [hs, JobState.isTerminal] at h
    · simp [hs, JobState.isTerminal] at h
    · simp [jobStep, hs]
    · simp [jobStep, hs]
  | updateProgress cur item =>
    cases hs : j.status
    · simp [hs, JobState.isTerminal] at h
    · simp [hs, JobState.isTerminal] at h
    · simp [jobStep, hs]
    · simp [jobStep, hs]
  | complete t res => simp [jobStep, h]
  | fail t msg => simp [jobStep, h]

theorem jobStep_progress_le (j : Job) (op : JobOp) :
    j.progressCurrent ≤ (jobStep j op).progressCurrent := by
  cases op with
  | claim t => cases h : j.status <;> simp [jobStep, h]
  | updateProgress cur item =>
    cases h : j.status <;> simp [jobStep, h]
    split
    · next hc => exact hc.1
    · exact le_refl _
  | complete t res => by_cases h : j.status.isTerminal = true <;> simp [jobStep, h]
  | fail t msg => by_cases h : j.status.isTerminal = true <;> simp [jobStep, h]

theorem jobStep_inv (j : Job) (op : JobOp) (hinv : jobInv j) :
    jobInv (jobStep j op) := by
  cases op with
  | claim t => cases h : j.status <;> simpa [jobStep, h, jobInv] using hinv
  | updateProgress cur item =>
    cases h : j.status <;> try simpa [jobStep, h, jobInv] using hinv
    simp only [jobStep, h]
    split
    · next hc => intro hpos; exact hc.2 hpos
    · exact hinv
  | complete t res =>
    by_cases h : j.status.isTerminal = true <;>
      simpa [jobStep, h, jobInv] using hinv
  | fail t msg =>
    by_cases h : j.status.isTerminal = true <;>
      simpa [jobStep, h, jobInv] using hinv

/-- Claim C6: along any sequence of engine operations the status rank
never regresses (pending → running → terminal only), a terminal job is
never changed again, progress_current never decreases, and the
progress_current ≤ progress_total (when positive) invariant is
preserved; a freshly enqueued job satisfies the invariant. -/
theorem job_monotonic_contract (j : Job) (ops : List JobOp)
    (hinv : jobInv j) :
    j.status.rank ≤ (runJob j ops).status.rank ∧
    j.progressCurrent ≤ (runJob j ops).progressCurrent ∧
    jobInv (runJob j ops) ∧
    (j.status.isTerminal = true → runJob j ops = j) ∧
    (∀ i jt ti total c, jobInv (enqueueJob i jt ti total c)) := by
  induction ops generalizing j with
  | nil =>
    exact ⟨le_refl _, le_refl _, hinv, fun _ => rfl,
      fun i jt ti total c hpos => Nat.zero_le _⟩
  | cons op rest ih =>
    rcases ih (jobStep j op) (jobStep_inv j op hinv) with ⟨h1, h2, h3, _, h5⟩
    refine ⟨le_trans (jobStep_rank_le j op) h1,
      le_trans (jobStep_progress_le j op) h2, h3, ?_, h5⟩
    intro hterm
    have hfix := jobStep_terminal_fixed j op hterm
    show runJob (jobStep j op) rest = j
    rw [hfix]
    have := (ih j hinv).2.2.2.1
    exact (ih j hinv).2.2.2.1 hterm

/-- Witness for C6: a concrete trace — enqueue, claim, progress update,
completion, then a late claim attempt that is ignored. -/
theorem job_monotonic_contract_witness :
    (enqueueJob 1 "category_refresh" "Refresh Tech" 2 0).status.rank ≤
      (runJob (enqueueJob 1 "category_refresh" "Refresh Tech" 2 0)
        [.claim 1, .updateProgress 1 (some "b0"), .updateProgress 2 none,
         .complete 9 [], .claim 10]).status.rank ∧
    (enqueueJob 1 "category_refresh" "Refresh Tech" 2 0).progressCurrent ≤
      (runJob (enqueueJob 1 "category_refresh" "Refresh Tech" 2 0)
        [.claim 1, .updateProgress 1 (some "b0"), .updateProgress 2 none,
         .complete 9 [], .claim 10]).progressCurrent ∧
    jobInv (runJob (enqueueJob 1 "category_refresh" "Refresh Tech" 2 0)
        [.claim 1, .updateProgress 1 (some "b0"), .updateProgress 2 none,
         .complete 9 [], .claim 10]) ∧
    ((enqueueJob 1 "category_refresh" "Refresh Tech" 2 0).status.isTerminal
        = true →
      runJob (enqueueJob 1 "category_refresh" "Refresh Tech" 2 0)
        [.claim 1, .updateProgress 1 (some "b0"), .updateProgress 2 none,
         .complete 9 [], .claim 10] =
        enqueueJob 1 "category_refresh" "Refresh Tech" 2 0) ∧
    (∀ i jt ti total c, jobInv (enqueueJob i jt ti total c)) :=
  job_monotonic_contract (enqueueJob 1 "category_refresh" "Refresh Tech" 2 0)
    [.claim 1, .updateProgress 1 (some "b0"), .updateProgress 2 none,
     .complete 9 [], .claim 10]
    (fun _ => Nat.zero_le _)

/-! ## Tag regeneration and category refresh (spec §4.1, §4.5) -/

/-- Modelled from the spec: regenerateTags re-runs the Descriptor
Generator and replaces the bookmark tag list; it does not change the
category and does not re-embed.  A generator failure leaves the
bookmark unchanged (recorded as a per-item failure). -/
def regenerateTags (b : Bookmark) (descOutcome : Except GenError DescOut) :
    Bookmark :=
  match descOutcome with
  | .ok d => { b with tags := d.tags }
  | .error _ => b

/-- Modelled from the spec: the per-item step of a category refresh job
updates tags only — it never recategorizes and never re-embeds
(spec §4.5). -/
def categoryRefreshItem (b : Bookmark)
    (descOutcome : Except GenError DescOut) : Bookmark :=
  match descOutcome with
  | .ok d => { b with tags := d.tags }
  | .error _ => b

/-- Claim C8: regenerateTags and the category-refresh per-item step
replace only the tags — category, embedding and every other field of
the bookmark are unchanged. -/
theorem regenerate_tags_frame (b : Bookmark)
    (descOutcome : Except GenError DescOut) :
    (regenerateTags b descOutcome).category = b.category ∧
    (regenerateTags b descOutcome).embedding = b.embedding ∧
    (regenerateTags b descOutcome).id = b.id ∧
    (regenerateTags b descOutcome).url = b.url ∧
    (regenerateTags b descOutcome).title = b.title ∧
    (regenerateTags b descOutcome).description = b.description ∧
    (regenerateTags b descOutcome).domain = b.domain ∧
    (regenerateTags b descOutcome).reference = b.reference ∧
    (regenerateTags b descOutcome).lifecycle = b.lifecycle ∧
    (regenerateTags b descOutcome).createdAt = b.createdAt ∧
    categoryRefreshItem b descOutcome = regenerateTags b descOutcome := by
  cases descOutcome <;>
    exact ⟨rfl, rfl, rfl, rfl, rfl, rfl, rfl, rfl, rfl, rfl, rfl⟩

/-! ## Auxiliary lemmas for the extension flows -/

theorem trimChars_idem (l : List Char) : trimChars (trimChars l) = trimChars l := by
  have htc : ∀ m : List Char, trimChars m =
      List.rdropWhile Char.isWhitespace (List.dropWhile Char.isWhitespace m) := by
    intro m
    rfl
  rw [htc, htc]
  have h1 : List.dropWhile Char.isWhitespace
      (List.rdropWhile Char.isWhitespace
        (List.dropWhile Char.isWhitespace l)) =
      List.rdropWhile Char.isWhitespace (List.dropWhile Char.isWhitespace l) := by
    rw [List.dropWhile_eq_self_iff]
    intro hl
    have hpre :=
      List.rdropWhile_prefix Char.isWhitespace (List.dropWhile Char.isWhitespace l)
    have hl2 : 0 < (List.dropWhile Char.isWhitespace l).length :=
      lt_of_lt_of_le hl hpre.length_le
    have hget : (List.rdropWhile Char.isWhitespace
        (List.dropWhile Char.isWhitespace l)).get ⟨0, hl⟩ =
        (List.dropWhile Char.isWhitespace l).get ⟨0, hl2⟩ := by
      simp only [List.get_eq_getElem]
      exact List.IsPrefix.getElem hpre hl
    rw [hget]
    exact List.dropWhile_get_zero_not Char.isWhitespace l hl2
  rw [h1, List.rdropWhile_idempotent]

theorem trimS_idem (s : String) : trimS (trimS s) = trimS s :=
  congrArg String.mk (trimChars_idem s.data)

/-- Looking up the id just issued by preview finds the freshly staged
pending row. -/
theorem findPending_nextStore (st : Store) (now : Nat) (url : String)
    (fetched : Option Content) (descOutcome : Except GenError DescOut) :
    findPending (nextStore st now url fetched descOutcome) st.nextId =
      some (previewRow st now url fetched descOutcome) := by
  show (previewRow st now url fetched descOutcome :: st.pending).find?
      (fun r => r.id == st.nextId) =
    some (previewRow st now url fetched descOutcome)
  exact List.find?_cons_of_pos _ (beq_self_eq_true _)

/-- A save whose pending row is found, unexpired, and whose category and
effective title validate, succeeds with the named bookmark and store. -/
theorem save_ok (st : Store) (now : Nat) (inp : SaveInput)
    (r : PendingRecord) (t : String) (v : List ℚ)
    (hfind : findPending st inp.id = some r)
    (hexp : ¬ r.expiresAt < now)
    (hcat : ¬ trimS inp.category = "")
    (heff : effectiveTitle inp r = some t) :
    saveBookmark st now inp (.ok v) =
      (.ok (savedBookmarkOf r inp t v now),
        commitSave st inp.id (savedBookmarkOf r inp t v now)) := by
  simp [saveBookmark, hfind, hexp, hcat, heff]

/-! ## Chrome extension flows (src/chrome-extension) -/

/-- A quick-save outcome as background.js reports it. -/
structure QuickSaveResult where
  success : Bool
  title : Option String
  error : Option String
deriving DecidableEq, Repr

/-- Embedded from src/chrome-extension/background.js (quickSaveBookmark):
the save request body is always { id, category: preview.suggested_category }
— no title and no reference are ever included. -/
def quickSavePayload (p : Preview) : SaveInput where
  id := p.id
  category := p.suggestedCategory
  title := none
  reference := none

/-- Embedded from src/chrome-extension/background.js (quickSaveBookmark):
preview the URL, then immediately save with the suggested category; any
failed request yields a failure result instead of a saved bookmark. -/
def quickSaveBookmark (hasToken : Bool) (st : Store) (now : Nat)
    (url : String) (fetched : Option Content)
    (descOutcome : Except GenError DescOut)
    (embedOutcome : Except GenError (List ℚ)) : QuickSaveResult × Store :=
  if !hasToken then
    ({ success := false, title := none,
       error := some "Please sign in first" }, st)
  else
    match previewBookmark st now url fetched descOutcome with
    | .error _ =>
      ({ success := false, title := none,
         error := some "Failed to preview bookmark" }, st)
    | .ok (p, st₁) =>
      match saveBookmark st₁ now (quickSavePayload p) embedOutcome with
      | (.error _, st₂) =>
        ({ success := false, title := none,
           error := some "Failed to save bookmark" }, st₂)
      | (.ok b, st₂) =>
        ({ success := true, title := b.title, error := none }, st₂)

/-- Embedded from src/chrome-extension/popup/popup.js (handleSave): was
the trimmed title input changed relative to the preview title? -/
def titleChanged (preview : Preview) (title : String) : Bool :=
  match preview.title with
  | some pt => title != pt
  | none => true

/-- Embedded from src/chrome-extension/popup/popup.js (handleSave): the
request body the popup submits, or none when validation stops the save
(scrape failed and no title typed).  The title is included whenever the
scrape failed or the trimmed input differs from the preview title; an
empty category falls back to the suggested category. -/
def popupSavePayload (preview : Preview) (typedTitle typedCategory : String) :
    Option SaveInput :=
  let title := trimS typedTitle
  let category := trimS typedCategory
  if preview.scrapeFailed = true ∧ title = "" then none
  else
    some { id := preview.id,
           category := if category = ""
             then preview.suggestedCategory else category,
           title := if preview.scrapeFailed = true ∨ titleChanged preview title = true
             then some title else none,
           reference := none }

/-- Claim C10: quickSaveBookmark submits { id, category: suggested } with
no title, so a page whose fetch failed and whose preview carries a null
title — whether the Descriptor Generator failed or merely inferred no
title — always quick-saves to a failure result with no saved bookmark
created; the popup flow refuses to submit without a typed title, and
with a non-empty typed title its payload carries that title and the
save succeeds whenever its category validates. -/
theorem quick_save_missing_title_contract (st : Store) (now : Nat)
    (url : String) (descOutcome : Except GenError DescOut)
    (p : Preview) (st₁ : Store)
    (hurl : isValidUrl url = true)
    (hdup : st.savedBookmarks.any (fun b => b.url == normalizeUrl url) = false)
    (htl : previewTitle none descOutcome = none)
    (hp : p = previewPayload st url none descOutcome)
    (hst₁ : st₁ = nextStore st now url none descOutcome) :
    p.scrapeFailed = true ∧ p.title = none ∧
    (∀ q : Preview, (quickSavePayload q).title = none ∧
      (quickSavePayload q).category = q.suggestedCategory) ∧
    (∀ emb,
      (quickSaveBookmark true st now url none descOutcome emb).1.success = false ∧
      (quickSaveBookmark true st now url none descOutcome emb).2.savedBookmarks =
        st.savedBookmarks) ∧
    (∀ tt tc, trimS tt = "" → popupSavePayload p tt tc = none) ∧
    (∀ tt tc v, ¬ trimS tt = "" →
      ∃ inp, popupSavePayload p tt tc = some inp ∧
        inp.title = some (trimS tt) ∧
        (¬ trimS inp.category = "" →
          ∃ b st₂, saveBookmark st₁ now inp (.ok v) = (.ok b, st₂) ∧
            b.title = some (trimS tt) ∧ b.embedding = some v ∧
            st₂.savedBookmarks = b :: st₁.savedBookmarks)) := by
  subst hp
  subst hst₁
  have hpre := preview_ok st now url none descOutcome hurl hdup
  have hexp : ¬ (previewRow st now url none descOutcome).expiresAt < now := by
    show ¬ now + ttlSeconds < now
    omega
  have hsf : (previewPayload st url none descOutcome).scrapeFailed = true := rfl
  refine ⟨hsf, htl, fun q => ⟨rfl, rfl⟩, ?_, ?_, ?_⟩
  · intro emb
    have hfind2 : findPending (nextStore st now url none descOutcome)
        (quickSavePayload (previewPayload st url none descOutcome)).id =
        some (previewRow st now url none descOutcome) :=
      findPending_nextStore st now url none descOutcome
    have heff : effectiveTitle
        (quickSavePayload (previewPayload st url none descOutcome))
        (previewRow st now url none descOutcome) = none := htl
    have hsaveFail : ∃ err,
        saveBookmark (nextStore st now url none descOutcome) now
          (quickSavePayload (previewPayload st url none descOutcome)) emb =
        (.error err, nextStore st now url none descOutcome) := by
      by_cases hc : trimS
          (quickSavePayload (previewPayload st url none descOutcome)).category
          = ""
      · exact ⟨.emptyCategory, by simp [saveBookmark, hfind2, hexp, hc]⟩
      · exact ⟨.missingTitle, by simp [saveBookmark, hfind2, hexp, hc, heff]⟩
    rcases hsaveFail with ⟨err, hsaveFail⟩
    constructor
    · simp [quickSaveBookmark, hpre, hsaveFail]
    · simp [quickSaveBookmark, hpre, hsaveFail]
      rfl
  · intro tt tc htt
    simp [popupSavePayload, hsf, htt]
  · intro tt tc v htt
    set inp : SaveInput :=
      { id := (previewPayload st url none descOutcome).id,
        category := if trimS tc = ""
          then (previewPayload st url none descOutcome).suggestedCategory
          else trimS tc,
        title := some (trimS tt),
        reference := none } with hinp
    have hpay : popupSavePayload (previewPayload st url none descOutcome) tt tc
        = some inp := by
      simp only [popupSavePayload]
      rw [if_neg (fun h => htt h.2)]
      rw [if_pos (Or.inl hsf)]
    refine ⟨inp, hpay, rfl, ?_⟩
    intro hcat3
    have hfind3 : findPending (nextStore st now url none descOutcome) inp.id =
        some (previewRow st now url none descOutcome) :=
      findPending_nextStore st now url none descOutcome
    have heff : effectiveTitle inp (previewRow st now url none descOutcome) =
        some (trimS tt) := by
      simp only [effectiveTitle, hinp]
      rw [trimS_idem]
      rw [if_neg htt]
    have hsave := save_ok (nextStore st now url none descOutcome) now inp
      (previewRow st now url none descOutcome) (trimS tt) v hfind3 hexp hcat3 heff
    exact ⟨savedBookmarkOf (previewRow st now url none descOutcome) inp
        (trimS tt) v now,
      commitSave (nextStore st now url none descOutcome) inp.id
        (savedBookmarkOf (previewRow st now url none descOutcome) inp
          (trimS tt) v now),
      hsave, rfl, rfl, rfl⟩

/-- A descriptor success that infers no title, as spec §4.1(c) allows
when only domain context is available. -/
def wDescNoTitle : DescOut where
  tags := ["news"]
  suggestedCategory := "Tech"
  title := none
  description := none

/-- Witness for C10: quick-saving https://example.com/a whose fetch
failed while the Descriptor Generator succeeded without inferring a
title produces a failure result and leaves the saved bookmarks
untouched. -/
theorem quick_save_missing_title_contract_witness :
    (quickSaveBookmark true wStore0 0 "https://example.com/a" none
        (.ok wDescNoTitle) (.ok [1])).1.success = false ∧
    (quickSaveBookmark true wStore0 0 "https://example.com/a" none
        (.ok wDescNoTitle) (.ok [1])).2.savedBookmarks =
      wStore0.savedBookmarks :=
  (quick_save_missing_title_contract wStore0 0 "https://example.com/a"
    (.ok wDescNoTitle)
    (previewPayload wStore0 "https://example.com/a" none (.ok wDescNoTitle))
    (nextStore wStore0 0 "https://example.com/a" none (.ok wDescNoTitle))
    (by decide) rfl rfl rfl rfl).2.2.2.1 (.ok [1])

end BookmarkSearch
